import Mathlib

/-!
Verification of the Hoymiles micro-inverter transport layer
(`tools/rpi/hoymiles/__init__.py` and `tools/rpi/hoymiles/decoders/__init__.py`).

The Python code is shallowly embedded: byte strings become `List Nat`
(each entry a byte value), fallible operations (`struct.pack`/`unpack`,
`int(..., base=16)`, raised exceptions) become `Option`/`Except`, and the
stateful transaction objects become explicit records.  Arithmetic on decoded
telemetry uses `ℚ`, mirroring Python's exact integer-division results on the
inputs of interest.
-/

set_option maxRecDepth 100000

namespace Ahoy

/-! ## Byte-level helpers -/

/-- Big-endian value of a byte list (`struct.unpack` `>L`/`>H`/`>B` body). -/
def u32be (bs : List Nat) : Nat :=
  bs.foldl (fun a b => a * 256 + b) 0

/-- Python slice `l[a:b]` for `0 ≤ a ≤ b` (never raises, may be short). -/
def pySlice (l : List Nat) (a b : Nat) : List Nat :=
  (l.drop a).take (b - a)

/-- Model of `struct.unpack('>L', bs)`: succeeds only on exactly 4 bytes. -/
def unpackU32 (bs : List Nat) : Option Nat :=
  if bs.length = 4 then some (u32be bs) else none

/-- Model of `struct.unpack('>H', bs)`: succeeds only on exactly 2 bytes. -/
def unpackU16 (bs : List Nat) : Option Nat :=
  if bs.length = 2 then some (u32be bs) else none

/-- Model of `struct.unpack('>B', bs)`: succeeds only on exactly 1 byte. -/
def unpackU8 (bs : List Nat) : Option Nat :=
  if bs.length = 1 then some (u32be bs) else none

/-- Model of `int(n).to_bytes(1, 'big')` / `struct.pack('>B', n)`: fails for `n ≥ 256`. -/
def toBytes1 (n : Nat) : Option (List Nat) :=
  if n < 256 then some [n] else none

/-- Model of `struct.pack('>L', n)` for `n < 2^32`: 4 bytes big-endian. -/
def pack4be (n : Nat) : List Nat :=
  [n / 2 ^ 24 % 256, n / 2 ^ 16 % 256, n / 2 ^ 8 % 256, n % 256]

/-- Model of `struct.pack('>H', n)` for `n < 2^16`: 2 bytes big-endian. -/
def pack2be (n : Nat) : List Nat :=
  [n / 256 % 256, n % 256]

/-! ## CRC-8 (generator 0x101, init 0, xorOut 0) and Modbus CRC-16

`crcmod.mkCrcFun(0x101, initCrc=0, xorOut=0)` is a bit-reflected CRC-8 whose
reversed polynomial is `0x80` (the generator `x^8 + 1` is palindromic, so the
reflected and unreflected computations coincide).  `crcmod`'s predefined
`modbus` CRC-16 is the reflected polynomial `0xA001` with init `0xFFFF`.
Both are validated below against the on-air byte strings recorded in
`tools/rpi/test.py`. -/

/-- One bit step of the reflected CRC-8. -/
def crc8Shift (c : Nat) : Nat :=
  if c % 2 = 1 then (c / 2) ^^^ 0x80 else c / 2

/-- Eight bit steps of the reflected CRC-8. -/
def crc8Bits : Nat → Nat → Nat
  | c, 0 => c
  | c, k + 1 => crc8Bits (crc8Shift c) k

/-- Model of `f_crc8` from the source: CRC-8 of a byte list. -/
def crc8 (bs : List Nat) : Nat :=
  bs.foldl (fun c b => crc8Bits ((c ^^^ b) % 256) 8) 0

/-- One bit step of the reflected Modbus CRC-16. -/
def crc16Shift (c : Nat) : Nat :=
  if c % 2 = 1 then (c / 2) ^^^ 0xA001 else c / 2

/-- Eight bit steps of the reflected Modbus CRC-16. -/
def crc16Bits : Nat → Nat → Nat
  | c, 0 => c
  | c, k + 1 => crc16Bits (crc16Shift c) k

/-- Model of `f_crc_m` from the source: Modbus CRC-16 of a byte list. -/
def crc16 (bs : List Nat) : Nat :=
  bs.foldl (fun c b => crc16Bits (c ^^^ b % 256) 8) 0xFFFF

/-- Model of `struct.pack('>H', f_crc_m(payload))`, the big-endian CRC trailer. -/
def crc16be (bs : List Nat) : List Nat :=
  pack2be (crc16 bs)

/-! ## Serial-number address codec -/

/-- Value of a hexadecimal digit character, if any. -/
def hexDigit? (c : Char) : Option Nat :=
  if '0' ≤ c ∧ c ≤ '9' then some (c.toNat - 48)
  else if 'a' ≤ c ∧ c ≤ 'f' then some (c.toNat - 87)
  else if 'A' ≤ c ∧ c ≤ 'F' then some (c.toNat - 55)
  else none

/-- Model of `int(s, base=16)`: fails on the empty string or a non-hex character. -/
def parseHex (cs : List Char) : Option Nat :=
  if cs.isEmpty then none
  else cs.foldlM (fun a c => (fun d => a * 16 + d) <$> hexDigit? c) 0

/-- Model of `ser_to_hm_addr`: the last 8 characters of the serial, read as
hexadecimal, packed as 4 bytes big-endian. -/
def ser_to_hm_addr (ser : String) : Option (List Nat) :=
  (fun n => pack4be n) <$> parseHex (ser.toList.drop (ser.length - 8))

/-- Model of `ser_to_esb_addr`: reverse the 4 `hm_addr` bytes, append `0x01`,
reverse again (equivalently `0x01 :: hm_addr`). -/
def ser_to_esb_addr (ser : String) : Option (List Nat) :=
  (fun a => ((a.reverse ++ [0x01]).reverse)) <$> ser_to_hm_addr ser

/-! ## ESB fragment (`InverterPacketFragment`) -/

/-- A received ESB frame: the raw on-air bytes. -/
structure Frame where
  frame : List Nat
deriving DecidableEq, Repr

/-- Model of `InverterPacketFragment.__init__`: reject (raise `BufferError`) unless
the last byte is the CRC-8 of the preceding bytes.  `payload[-1]` on an empty
buffer raises as well, hence `none` there. -/
def fragment_parse (payload : List Nat) : Option Frame :=
  match payload.getLast? with
  | none => none
  | some last => if crc8 payload.dropLast = last then some ⟨payload⟩ else none

/-- Model of `main_cmd` = `frame[0]`; raises on an empty frame. -/
def Frame.main_cmd? (f : Frame) : Option Nat :=
  f.frame.head?

/-- Model of `src` = `struct.unpack('>L', frame[1:5])`. -/
def Frame.src? (f : Frame) : Option Nat :=
  unpackU32 (pySlice f.frame 1 5)

/-- Model of `dst` = `struct.unpack('>L', frame[5:8])`: the source takes a THREE byte
slice (`frame[5:8]`) and unpacks it with the four-byte format `>L`. -/
def Frame.dst? (f : Frame) : Option Nat :=
  unpackU32 (pySlice f.frame 5 8)

/-- Model of `seq` = `struct.unpack('>B', frame[9:10])`. -/
def Frame.seq? (f : Frame) : Option Nat :=
  unpackU8 (pySlice f.frame 9 10)

/-- Model of `data` = `frame[10:-1]` (total: Python slices never raise). -/
def Frame.data (f : Frame) : List Nat :=
  (f.frame.drop 10).dropLast

/-- Total variant of `main_cmd` used by the transaction model; agrees with
`main_cmd?` on frames of at least 1 byte. -/
def Frame.mainCmd (f : Frame) : Nat :=
  f.frame.headD 0

/-- Total variant of `src` used by the transaction model; agrees with `src?`
on frames of at least 5 bytes. -/
def Frame.srcN (f : Frame) : Nat :=
  u32be (pySlice f.frame 1 5)

/-- Total variant of `seq` used by the transaction model; agrees with `seq?`
on frames of at least 10 bytes. -/
def Frame.seqN (f : Frame) : Nat :=
  u32be (pySlice f.frame 9 10)

/-! ## Request composition -/

/-- Model of `compose_esb_fragment(fragment, maincmd, subcmd, src, dst)`:
`maincmd ++ hm_addr(dst) ++ hm_addr(src) ++ subcmd ++ fragment ++ crc8`.
Raises (`none`) if the fragment exceeds 17 bytes or a serial fails to parse. -/
def compose_esb_fragment (fragment maincmd subcmd : List Nat)
    (src dst : String) : Option (List Nat) :=
  if 17 < fragment.length then none
  else
    match ser_to_hm_addr dst, ser_to_hm_addr src with
    | some dstA, some srcA =>
      let packet := maincmd ++ dstA ++ srcA ++ subcmd ++ fragment
      some (packet ++ [crc8 packet])
    | _, _ => none

/-- Model of `bytes(ESBFrame(...))`: preamble, 4-byte target, 4-byte source, payload,
CRC-8 trailer.  `ESBFrame.__init__` ignores its `preamble` parameter, so the
class default `0x15` is always used; `set_source`/`set_target` raise unless
the addresses are exactly 4 bytes. -/
def esbFrameBytes (target source payload : List Nat) : Option (List Nat) :=
  if target.length = 4 ∧ source.length = 4 then
    let packet := 0x15 :: (target ++ source ++ payload)
    some (packet ++ [crc8 packet])
  else none

/-- The fragment loop of `RequestFactory.__iter__`: walk the CRC-trailed
payload in 16-byte steps (`_mtu = 16`), incrementing the frame counter and
OR-ing `0x80` onto the terminal fragment's counter; each step packs the
counter with `>B` (failing at 256) and emits an `ESBFrame`. -/
def rfGo (target source : List Nat) : List Nat → Nat → Option (List (List Nat))
  | rest, n =>
    if hrest : rest = [] then some []
    else
      let n1 := n + 1
      let n2 := if rest.length ≤ 16 then n1 + 0x80 else n1
      match toBytes1 n2 with
      | none => none
      | some sub =>
        match esbFrameBytes target source (sub ++ rest.take 16) with
        | none => none
        | some fr => (fun fs => fr :: fs) <$> rfGo target source (rest.drop 16) n2
termination_by rest _ => rest.length
decreasing_by
  simp only [List.length_drop]
  have : 0 < rest.length := List.length_pos.mpr hrest
  omega

/-- Model of `RequestFactory(payload, dtu_ser=…, inverter_ser=…)` iterated to a list:
append the Modbus CRC-16 to the payload and fragment it. -/
def rfFrames (payload : List Nat) (dtu_ser inverter_ser : String) :
    Option (List (List Nat)) :=
  match ser_to_hm_addr dtu_ser, ser_to_hm_addr inverter_ser with
  | some source, some target => rfGo target source (payload ++ crc16be payload) 0
  | _, _ => none

/-- Number of 16-byte chunks `range(0, l, 16)` iterates over. -/
def clen (pl : List Nat) : Nat :=
  (pl.length + 15) / 16

/-- Specification-level description of the fragments `RequestFactory.__iter__`
emits from frame counter `n`: the (sequence byte, data chunk) pairs. -/
def chunkFrames : List Nat → Nat → List (Nat × List Nat)
  | pl, n =>
    if h0 : pl = [] then []
    else if pl.length ≤ 16 then [(n + 1 + 0x80, pl)]
    else (n + 1, pl.take 16) :: chunkFrames (pl.drop 16) (n + 1)
termination_by pl _ => pl.length
decreasing_by
  simp only [List.length_drop]
  have := List.length_pos.mpr h0
  omega

/-- The on-air bytes of one composed `ESBFrame` (always preamble `0x15`):
sequence byte, data chunk, CRC-8 trailer. -/
def mkEsb (target source : List Nat) (s : Nat) (chunk : List Nat) :
    List Nat :=
  let packet := 0x15 :: (target ++ source ++ ([s] ++ chunk))
  packet ++ [crc8 packet]

/-! ## Transaction engine (`InverterTransaction`) -/

/-- The Python exceptions `get_payload` can raise. -/
inductive PyErr where
  /-- `ValueError` from `max(frames, …)` on an empty `frames` list. -/
  | valueErrorEmptyMax
  /-- `BufferError('Missing packet: Last packet …')` (no terminal frame). -/
  | bufferErrorLast
  /-- `BufferError('Frame i missing: Request Retransmit')`. -/
  | bufferErrorMissing (i : Nat)
  /-- `struct.error` from unpacking `payload[-2:]` shorter than 2 bytes. -/
  | structError
  /-- `ValueError('Payload failed CRC check.')`. -/
  | valueErrorCrc
deriving DecidableEq, Repr

instance : DecidableEq (Except PyErr (Nat × List Nat)) := fun a b =>
  match a, b with
  | .ok x, .ok y =>
    if h : x = y then .isTrue (by rw [h]) else .isFalse (by simp [h])
  | .error x, .error y =>
    if h : x = y then .isTrue (by rw [h]) else .isFalse (by simp [h])
  | .ok _, .error _ => .isFalse (by simp)
  | .error _, .ok _ => .isFalse (by simp)

/-- Model of `max(frames, key=λ f: f.seq).seq`: `none` (a raised `ValueError`) on the
empty list, otherwise the maximum sequence number. -/
def pyMaxSeq : List Frame → Option Nat
  | [] => none
  | f :: fs => some (fs.foldl (fun a g => max a g.seqN) f.seqN)

/-- Model of `InverterTransaction.__retransmit_frame` body: build the zero-data
retransmit fragment with sub-command byte `0x80 + frame_id`, source the DTU
serial and destination the inverter serial. -/
def retransmitPacket (dtu_ser inverter_ser : String) (frame_id : Nat) :
    Option (List Nat) :=
  match toBytes1 (0x80 + frame_id) with
  | none => none
  | some sub => compose_esb_fragment [] [0x15] sub dtu_ser inverter_ser

/-- Model of `__retransmit_frame` + `queue_tx`: the packets appended to the TX queue
(one if the radio is present, none otherwise); `none` models a raised
exception while building the packet. -/
def doRetransmit (radio : Bool) (dtu_ser inverter_ser : String)
    (frame_id : Nat) : Option (List (List Nat)) :=
  if radio then
    (fun p => [p]) <$> retransmitPacket dtu_ser inverter_ser frame_id
  else some []

/-- Model of `frames = [frame for frame in self.scratch if frame.src == src]`. -/
def filteredFrames (scratch : List Frame) (src : Nat) : List Frame :=
  scratch.filter (fun f => f.srcN == src)

/-- The reassembly loop `for frame_id in range(1, tr_len)`: for each id
in turn, find the first matching frame and append its data; stop with the
first missing id. -/
def rebuildLoop (frames : List Frame) : List Nat → Except Nat (List Nat)
  | [] => .ok []
  | i :: rest =>
    match frames.find? (fun f => f.seqN == i) with
    | none => .error i
    | some f =>
      match rebuildLoop frames rest with
      | .error j => .error j
      | .ok tail => .ok (f.data ++ tail)

/-- Model of `InverterTransaction.get_payload`, as a function of the scratch buffer,
the source filter address, the radio flag and the two serials.  Returns the
Python result (`Except` for raised exceptions) together with the list of
packets appended to the TX queue; the outer `none` models an exception while
building a retransmit packet. -/
def getPayloadCore (scratch : List Frame) (src : Nat) (radio : Bool)
    (dtu_ser inverter_ser : String) :
    Option (Except PyErr (Nat × List Nat) × List (List Nat)) :=
  let frames := filteredFrames scratch src
  match frames.find? (fun f => 0x80 < f.seqN) with
  | none =>
    match pyMaxSeq frames with
    | none => some (.error .valueErrorEmptyMax, [])
    | some seqLast =>
      match doRetransmit radio dtu_ser inverter_ser (seqLast + 1) with
      | none => none
      | some tx => some (.error .bufferErrorLast, tx)
  | some endFrame =>
    let trLen := endFrame.seqN - 0x80
    match rebuildLoop frames (List.range' 1 (trLen - 1)) with
    | .error i =>
      match doRetransmit radio dtu_ser inverter_ser i with
      | none => none
      | some tx => some (.error (.bufferErrorMissing i), tx)
    | .ok built =>
      let payload := built ++ endFrame.data
      if payload.length < 2 then some (.error .structError, [])
      else
        let pcrc := u32be (payload.drop (payload.length - 2))
        if crc16 (payload.take (payload.length - 2)) = pcrc then
          some (.ok (endFrame.mainCmd, payload), [])
        else some (.error .valueErrorCrc, [])

/-- An `InverterTransaction` constructed with a `request`: the instance
fields relevant to the transport layer.  `inverter_addr` is the integer
unpacked from the request bytes (`struct.unpack('>LLBB', request[1:11])`),
which is what the scratch filter compares against. -/
structure Transaction where
  txQueue : List (List Nat)
  scratch : List Frame
  radioPresent : Bool
  dtu_ser : String
  inverter_ser : String
  inverter_addr : Nat
deriving DecidableEq, Repr

/-- Model of `InverterTransaction.get_payload()` (default `src`): the Python result
plus the updated transaction (retransmit packets appended to the TX queue,
scratch untouched). -/
def Transaction.get_payload (t : Transaction) :
    Option (Except PyErr (Nat × List Nat) × Transaction) :=
  (getPayloadCore t.scratch t.inverter_addr t.radioPresent
      t.dtu_ser t.inverter_ser).map
    (fun r => (r.1, { t with txQueue := t.txQueue ++ r.2 }))

/-- Model of `InverterTransaction.frame_append`: append the frame to the scratch
buffer (a plain `list.append`; no key-based replacement). -/
def Transaction.frame_append (t : Transaction) (f : Frame) : Transaction :=
  { t with scratch := t.scratch ++ [f] }

/-- Model of `InverterTransaction.queue_tx`: append to the TX queue when a radio is
present, otherwise do nothing and report `False`. -/
def Transaction.queue_tx (t : Transaction) (frame : List Nat) :
    Bool × Transaction :=
  if t.radioPresent then (true, { t with txQueue := t.txQueue ++ [frame] })
  else (false, t)

/-! ## Shared class attribute `tx_queue` (`InverterTransaction` at class level)

In the source, `tx_queue = []` and `scratch = []` are *class* attributes.
`__init__` rebinds `self.scratch = []` on every instance, making the scratch
per-instance, but never rebinds `self.tx_queue`; `queue_tx` therefore runs
`self.tx_queue.append(frame)`, which resolves to the single class-level list
shared by every instance.  `TxnPair` models two live instances: one shared
TX queue, two private scratch buffers. -/
structure TxnPair where
  classTxQueue : List (List Nat)
  scratchA : List Frame
  scratchB : List Frame
deriving DecidableEq, Repr

/-- The `tx_queue` attribute as observed from instance A or B: attribute
lookup finds the class attribute in both cases. -/
def TxnPair.txQueueOf (w : TxnPair) (_first : Bool) : List (List Nat) :=
  w.classTxQueue

/-- Model of `queue_tx` called on instance A (`first = true`) or B, with a radio
present: appends to the shared class-level list. -/
def TxnPair.queue_tx (w : TxnPair) (_first : Bool) (frame : List Nat) :
    TxnPair :=
  { w with classTxQueue := w.classTxQueue ++ [frame] }

/-- Model of `frame_append` called on instance A or B: appends to that instance's
own scratch (rebound per-instance in `__init__`). -/
def TxnPair.frame_append (w : TxnPair) (first : Bool) (f : Frame) : TxnPair :=
  if first then { w with scratchA := w.scratchA ++ [f] }
  else { w with scratchB := w.scratchB ++ [f] }

/-! ## Channel-hopping receive loop (`HoymilesNRF`) -/

/-- The default RX hop list. -/
def rx_channel_list : List Nat := [3, 23, 40, 61, 75]

/-- The mutable radio state driving channel hopping. -/
structure NrfState where
  rx_channel_id : Nat
  rx_channel_ack : Bool
  rx_error : Nat
deriving DecidableEq, Repr

/-- Model of `HoymilesNRF.next_rx_channel`: advance (wrapping) iff the current
channel is un-acked; report whether a new channel was selected. -/
def next_rx_channel (s : NrfState) : Bool × NrfState :=
  if !s.rx_channel_ack then
    let id := s.rx_channel_id + 1
    let id := if rx_channel_list.length ≤ id then 0 else id
    (true, { s with rx_channel_id := id })
  else (false, s)

/-- The `else` branch of one `receive` loop iteration (empty poll):
increment the miss counter, clear the ack flag after the second consecutive
miss, then attempt a channel hop. -/
def emptyPoll (s : NrfState) : NrfState :=
  let s1 := { s with rx_error := s.rx_error + 1 }
  let s2 := if 1 < s1.rx_error then { s1 with rx_channel_ack := false } else s1
  (next_rx_channel s2).2

/-- The `has_payload` branch of one `receive` loop iteration: reset the miss
counter and mark the channel acknowledged (the channel id is untouched). -/
def receivePoll (s : NrfState) : NrfState :=
  { s with rx_error := 0, rx_channel_ack := true }

/-! ## Status decoder `Hm600Decode0B` (two strings, one phase)

Each property unpacks a big-endian `u16`/`u32` at a fixed offset of the
reassembled payload and divides.  Division results are modelled in `ℚ`. -/

/-- Model of `unpack('>H', base)` of the response, as used by the decoders. -/
def hmU16 (r : List Nat) (base : Nat) : Option Nat :=
  unpackU16 (pySlice r base (base + 2))

/-- Model of `unpack('>L', base)` of the response. -/
def hmU32 (r : List Nat) (base : Nat) : Option Nat :=
  unpackU32 (pySlice r base (base + 4))

namespace Hm600Decode0B

/-- String 1 VDC: `u16 @ 2 / 10`. -/
def dc_voltage_0 (r : List Nat) : Option ℚ := (fun v => (v : ℚ) / 10) <$> hmU16 r 2

/-- String 1 ampere: `u16 @ 4 / 100`. -/
def dc_current_0 (r : List Nat) : Option ℚ := (fun v => (v : ℚ) / 100) <$> hmU16 r 4

/-- String 1 watts: `u16 @ 6 / 10`. -/
def dc_power_0 (r : List Nat) : Option ℚ := (fun v => (v : ℚ) / 10) <$> hmU16 r 6

/-- String 1 total energy Wh: `u32 @ 14`. -/
def dc_energy_total_0 (r : List Nat) : Option Nat := hmU32 r 14

/-- String 1 daily energy Wh: `u16 @ 22`. -/
def dc_energy_daily_0 (r : List Nat) : Option Nat := hmU16 r 22

/-- String 2 VDC: `u16 @ 8 / 10`. -/
def dc_voltage_1 (r : List Nat) : Option ℚ := (fun v => (v : ℚ) / 10) <$> hmU16 r 8

/-- String 2 ampere: `u16 @ 10 / 100`. -/
def dc_current_1 (r : List Nat) : Option ℚ := (fun v => (v : ℚ) / 100) <$> hmU16 r 10

/-- String 2 watts: `u16 @ 12 / 10`. -/
def dc_power_1 (r : List Nat) : Option ℚ := (fun v => (v : ℚ) / 10) <$> hmU16 r 12

/-- Phase 1 VAC: `u16 @ 26 / 10`. -/
def ac_voltage_0 (r : List Nat) : Option ℚ := (fun v => (v : ℚ) / 10) <$> hmU16 r 26

/-- Phase 1 ampere: the source divides `u16 @ 34` by 10 (not 100). -/
def ac_current_0 (r : List Nat) : Option ℚ := (fun v => (v : ℚ) / 10) <$> hmU16 r 34

/-- Phase 1 watts: `u16 @ 30 / 10`. -/
def ac_power_0 (r : List Nat) : Option ℚ := (fun v => (v : ℚ) / 10) <$> hmU16 r 30

/-- Grid frequency Hz: `u16 @ 28 / 100`. -/
def frequency (r : List Nat) : Option ℚ := (fun v => (v : ℚ) / 100) <$> hmU16 r 28

/-- Inverter temperature: `u16 @ 38 / 10`. -/
def temperature (r : List Nat) : Option ℚ := (fun v => (v : ℚ) / 10) <$> hmU16 r 38

end Hm600Decode0B

/-! ## Model classification (`ResponseDecoderFactory.inverter_model`) -/

/-- The Python exceptions `inverter_model` can raise. -/
inductive ModelErr where
  /-- `ValueError('Inverter serial while decoding response')` on a falsy serial. -/
  | valueError
  /-- `TypeError` from evaluating `len(None)` when no pattern matched. -/
  | typeError
  /-- `NotImplementedError('Model lookup failed …')` (dead code in the source). -/
  | notImplementedError
deriving DecidableEq, Repr

instance : DecidableEq (Except ModelErr String) := fun a b =>
  match a, b with
  | .ok x, .ok y =>
    if h : x = y then .isTrue (by rw [h]) else .isFalse (by simp [h])
  | .error x, .error y =>
    if h : x = y then .isTrue (by rw [h]) else .isFalse (by simp [h])
  | .ok _, .error _ => .isFalse (by simp)
  | .error _, .ok _ => .isFalse (by simp)

/-- Model of `re.match(r'^PPPP........', s)`: the four-digit prefix followed by at
least eight further characters. -/
def serMatches (pre s : String) : Bool :=
  pre.toList.isPrefixOf s.toList && decide (12 ≤ s.length)

/-- Model of `ResponseDecoderFactory.inverter_model`: try the prefixes `1121`, `1141`,
`1161` in order; on the first match return the model name (`len(model)` is
then positive).  With no match, `model` stays `None` and `len(model)` raises
`TypeError`, so the `NotImplementedError` branch is unreachable. -/
def inverter_model (ser : String) : Except ModelErr String :=
  if ser.isEmpty then .error .valueError
  else
    let m : Option String :=
      if serMatches "1121" ser then some "Hm300"
      else if serMatches "1141" ser then some "Hm600"
      else if serMatches "1161" ser then some "Hm1200"
      else none
    match m with
    | some name => .ok name
    | none => .error .typeError

/-! ## Concrete data for the end-to-end scenarios -/

/-- The 41-byte HM600 status payload exactly as printed in the spec
(section 8, scenario 2). -/
def specHm600Payload : List Nat :=
  [0x01, 0x00, 0x01, 0x01, 0x4E, 0x00, 0x9D, 0x02, 0x0A, 0x01, 0x50, 0x00,
   0x9D, 0x02, 0x10, 0x00, 0x00, 0x88, 0x1F, 0x00, 0x00, 0x7F, 0x08, 0x00,
   0x94, 0x00, 0x97, 0x08, 0xE2, 0x13, 0x89, 0x03, 0xEB, 0x00, 0x2C, 0x03,
   0xE8, 0x00, 0xD8, 0x00, 0x06]

/-- The 42-byte HM600 status payload actually reassembled from the three
response frames logged in `tools/rpi/test.py` (fragment data regions
concatenated, trailing Modbus CRC `0c 35` stripped). -/
def logHm600Payload : List Nat :=
  [0x00, 0x01, 0x01, 0x4E, 0x00, 0x9D, 0x02, 0x0A, 0x01, 0x50, 0x00, 0x9D,
   0x02, 0x10, 0x00, 0x00, 0x88, 0x1F, 0x00, 0x00, 0x7F, 0x08, 0x00, 0x94,
   0x00, 0x97, 0x08, 0xE2, 0x13, 0x89, 0x03, 0xEB, 0x00, 0x01, 0x00, 0x2C,
   0x03, 0xE8, 0x00, 0xD8, 0x00, 0x06]

/-- A single terminal response fragment (`seq = 0x81`, N = 1) from source
`72 22 01 43`, carrying data `01 02 03` plus its Modbus CRC `61 61`, with a
valid CRC-8 trailer. -/
def singleTermFrag : Frame :=
  ⟨[0x95, 0x72, 0x22, 0x01, 0x43, 0x72, 0x22, 0x01, 0x43, 0x81,
    0x01, 0x02, 0x03, 0x61, 0x61, 0x14]⟩

/-- First-received fragment with key `(src, seq) = (72 22 01 43, 1)`, data
`AA BB`. -/
def dupFragA : Frame :=
  ⟨[0x95, 0x72, 0x22, 0x01, 0x43, 0x72, 0x22, 0x01, 0x43, 0x01,
    0xAA, 0xBB, 0x85]⟩

/-- Later duplicate with the same key but different data `CC DD`. -/
def dupFragB : Frame :=
  ⟨[0x95, 0x72, 0x22, 0x01, 0x43, 0x72, 0x22, 0x01, 0x43, 0x01,
    0xCC, 0xDD, 0x85]⟩

/-- Terminal fragment (`seq = 0x82`, N = 2) whose data is the Modbus CRC of
`AA BB`, so reassembly from `dupFragA` passes the payload CRC check. -/
def dupFragTerm : Frame :=
  ⟨[0x95, 0x72, 0x22, 0x01, 0x43, 0x72, 0x22, 0x01, 0x43, 0x82,
    0x63, 0x3F, 0x4B]⟩

/-- A transaction holding `dupFragA` and the terminal fragment, before the
duplicate arrives. -/
def dupTxn : Transaction :=
  ⟨[], [dupFragA, dupFragTerm], true, "99978563412", "114172220143",
   u32be [0x72, 0x22, 0x01, 0x43]⟩

/-! ## Validation against the recorded log data -/

/-- The set-time request frame logged in `tools/rpi/test.py` carries the
Modbus CRC `0x7e58` over its 14-byte command payload. -/
example :
    crc16 [0x0b, 0x00, 0x62, 0x6e, 0x60, 0xee, 0x00, 0x00, 0x00, 0x05,
           0x00, 0x00, 0x00, 0x00] = 0x7e58 := by decide

/-- The same logged frame ends in the CRC-8 byte `0x25`. -/
example :
    crc8 [0x15, 0x72, 0x22, 0x01, 0x43, 0x78, 0x56, 0x34, 0x12, 0x80, 0x0b,
          0x00, 0x62, 0x6e, 0x60, 0xee, 0x00, 0x00, 0x00, 0x05, 0x00, 0x00,
          0x00, 0x00, 0x7e, 0x58] = 0x25 := by decide

/-- Spec scenario 1: serial `114172220143` maps to `72 22 01 43` and ESB
address `01 72 22 01 43`. -/
example :
    ser_to_hm_addr "114172220143" = some [0x72, 0x22, 0x01, 0x43] ∧
    ser_to_esb_addr "114172220143" = some [0x01, 0x72, 0x22, 0x01, 0x43] := by
  decide

/-- On frames of at least 5 bytes the total `src` accessor coincides with
the fallible one. -/
theorem Frame.src?_eq_srcN (f : Frame) (h : 5 ≤ f.frame.length) :
    f.src? = some f.srcN := by
  unfold Frame.src? Frame.srcN unpackU32 pySlice
  rw [if_pos]
  simp only [List.length_take, List.length_drop]
  omega

/-- On frames of at least 10 bytes the total `seq` accessor coincides with
the fallible one. -/
theorem Frame.seq?_eq_seqN (f : Frame) (h : 10 ≤ f.frame.length) :
    f.seq? = some f.seqN := by
  unfold Frame.seq? Frame.seqN unpackU8 pySlice
  rw [if_pos]
  simp only [List.length_take, List.length_drop]
  omega

/-! ## Reassembly lemmas -/

/-- If `x` is the unique element of `l` satisfying `p`, then `find?`
returns `x` — regardless of where `x` sits in `l`. -/
theorem find?_eq_of_unique {α : Type} {l : List α} {p : α → Bool} {x : α}
    (hx : x ∈ l) (hpx : p x = true) (huniq : ∀ y ∈ l, p y = true → y = x) :
    l.find? p = some x := by
  have hsome : (l.find? p).isSome := List.find?_isSome.mpr ⟨x, hx, hpx⟩
  obtain ⟨y, hy⟩ := Option.isSome_iff_exists.mp hsome
  rw [hy, huniq y (List.mem_of_find?_eq_some hy) (List.find?_some hy)]

/-- When every id in the range resolves to a frame, the reassembly loop
succeeds and concatenates the frame data in id order. -/
theorem rebuildLoop_ok (frames : List Frame) (dat : Nat → Frame) :
    ∀ rng : List Nat,
      (∀ i ∈ rng, frames.find? (fun f => f.seqN == i) = some (dat i)) →
      rebuildLoop frames rng = .ok ((rng.map (fun i => (dat i).data)).flatten)
  | [], _ => rfl
  | i :: rest, h => by
    have hi := h i (List.mem_cons_self i rest)
    have ih := rebuildLoop_ok frames dat rest
      (fun j hj => h j (List.mem_cons_of_mem _ hj))
    simp [rebuildLoop, hi, ih]

/-- The reassembly loop stops at the first missing id: if id `i` lies in the
range, resolves to no frame, and every earlier id in the range resolves,
the loop reports `i`. -/
theorem rebuildLoop_error (frames : List Frame) (i : Nat) :
    ∀ (m a : Nat), a ≤ i → i < a + m →
      frames.find? (fun f => f.seqN == i) = none →
      (∀ j, a ≤ j → j < i → (frames.find? (fun f => f.seqN == j)).isSome) →
      rebuildLoop frames (List.range' a m) = .error i := by
  intro m
  induction m with
  | zero => intro a h1 h2 _ _; omega
  | succ m ih =>
    intro a h1 h2 hnone hsome
    rw [List.range'_succ]
    by_cases hai : a = i
    · subst hai
      simp [rebuildLoop, hnone]
    · have ha : a < i := by omega
      obtain ⟨f, hf⟩ := Option.isSome_iff_exists.mp (hsome a le_rfl ha)
      have ihm := ih (a + 1) (by omega) (by omega) hnone
        (fun j hj1 hj2 => hsome j (by omega) hj2)
      simp [rebuildLoop, hf, ihm]

/-- Appending an element that satisfies a predicate only when some existing
element does leaves `find?` unchanged. -/
theorem find?_append_congr {α : Type} {l : List α} {x : α} {p : α → Bool}
    (h : p x = true → ∃ y ∈ l, p y = true) :
    (l ++ [x]).find? p = l.find? p := by
  rw [List.find?_append]
  cases hl : l.find? p with
  | some y => rfl
  | none =>
    simp only [Option.none_or]
    cases hp : p x with
    | true =>
      obtain ⟨y, hy, hpy⟩ := h hp
      rw [List.find?_eq_none] at hl
      exact absurd hpy (by simpa using hl y hy)
    | false => simp [List.find?, hp]

/-- The fold computing `max(frames, key=…)` dominates its seed and every
list element. -/
theorem le_foldl_max (l : List Frame) (a : Nat) :
    a ≤ l.foldl (fun acc g => max acc g.seqN) a ∧
    ∀ f ∈ l, f.seqN ≤ l.foldl (fun acc g => max acc g.seqN) a := by
  induction l generalizing a with
  | nil => simp
  | cons g gs ih =>
    refine ⟨le_trans (Nat.le_max_left _ _) (ih (max a g.seqN)).1, ?_⟩
    intro f hf
    rcases List.mem_cons.mp hf with hfg | hfgs
    · subst hfg
      exact le_trans (Nat.le_max_right _ _) (ih (max a f.seqN)).1
    · exact (ih (max a g.seqN)).2 f hfgs

/-- Appending a frame whose sequence number already occurs does not change
the maximum sequence number. -/
theorem pyMaxSeq_append_mem (l : List Frame) (f2 : Frame)
    (h : ∃ f1 ∈ l, f1.seqN = f2.seqN) :
    pyMaxSeq (l ++ [f2]) = pyMaxSeq l := by
  obtain ⟨f1, hmem, hseq⟩ := h
  cases l with
  | nil => simp at hmem
  | cons g gs =>
    simp only [List.cons_append, pyMaxSeq, List.foldl_append, List.foldl]
    congr 1
    have hle : f2.seqN ≤ gs.foldl (fun acc g => max acc g.seqN) g.seqN := by
      rcases List.mem_cons.mp hmem with hfg | hfgs
      · exact hseq ▸ hfg ▸ (le_foldl_max gs g.seqN).1
      · exact hseq ▸ (le_foldl_max gs g.seqN).2 f1 hfgs
    omega

/-- Appending a frame whose sequence number already occurs does not change
the reassembly loop's behaviour. -/
theorem rebuildLoop_append_congr (l : List Frame) (f2 : Frame)
    (h : ∃ f1 ∈ l, f1.seqN = f2.seqN) :
    ∀ rng, rebuildLoop (l ++ [f2]) rng = rebuildLoop l rng
  | [] => rfl
  | i :: rest => by
    have hfind : (l ++ [f2]).find? (fun f => f.seqN == i) =
        l.find? (fun f => f.seqN == i) := by
      apply find?_append_congr
      intro hp
      obtain ⟨f1, hf1, hseq⟩ := h
      exact ⟨f1, hf1, by simp only [hseq]; exact hp⟩
    have ih := rebuildLoop_append_congr l f2 h rest
    simp [rebuildLoop, hfind, ih]

/-! ## Composition lemmas -/

/-- A parsed `hm_addr` always has 4 bytes. -/
theorem ser_to_hm_addr_length {s : String} {a : List Nat}
    (h : ser_to_hm_addr s = some a) : a.length = 4 := by
  unfold ser_to_hm_addr at h
  cases hp : parseHex (s.toList.drop (s.length - 8)) with
  | none => rw [hp] at h; simp at h
  | some n =>
    rw [hp] at h
    simp at h
    subst h
    rfl

/-- Evaluating `chunkFrames` on the empty payload. -/
theorem chunkFrames_nil (n : Nat) : chunkFrames [] n = [] := by
  rw [chunkFrames]
  simp

/-- Evaluating `chunkFrames` when the whole payload fits one terminal fragment. -/
theorem chunkFrames_small (pl : List Nat) (n : Nat) (h0 : pl ≠ [])
    (h16 : pl.length ≤ 16) :
    chunkFrames pl n = [(n + 1 + 0x80, pl)] := by
  rw [chunkFrames]
  simp [h0, h16]

/-- Evaluating `chunkFrames` when more than one fragment is needed. -/
theorem chunkFrames_big (pl : List Nat) (n : Nat) (h16 : 16 < pl.length) :
    chunkFrames pl n = (n + 1, pl.take 16) :: chunkFrames (pl.drop 16) (n + 1) := by
  have h0 : pl ≠ [] := by
    intro h
    rw [h] at h16
    simp at h16
  rw [chunkFrames]
  simp [h0]
  omega

/-- A non-empty payload needs at least one chunk. -/
theorem clen_pos (pl : List Nat) (h0 : pl ≠ []) : 1 ≤ clen pl := by
  have : 0 < pl.length := List.length_pos.mpr h0
  unfold clen
  omega

/-- A payload of 1..16 bytes is exactly one chunk. -/
theorem clen_small (pl : List Nat) (h0 : pl ≠ []) (h16 : pl.length ≤ 16) :
    clen pl = 1 := by
  have : 0 < pl.length := List.length_pos.mpr h0
  unfold clen
  omega

/-- Chunk count recursion for payloads longer than 16 bytes. -/
theorem clen_big (pl : List Nat) (h16 : 16 < pl.length) :
    clen pl = clen (pl.drop 16) + 1 := by
  unfold clen
  simp only [List.length_drop]
  omega

/-- On 4-byte addresses, `esbFrameBytes` builds exactly `mkEsb`. -/
theorem esbFrameBytes_eq (target source : List Nat) (s : Nat)
    (chunk : List Nat) (htl : target.length = 4) (hsl : source.length = 4) :
    esbFrameBytes target source ([s] ++ chunk) =
      some (mkEsb target source s chunk) := by
  unfold esbFrameBytes mkEsb
  rw [if_pos ⟨htl, hsl⟩]

/-- Model of `RequestFactory.__iter__` (modelled by `rfGo`) emits exactly the frames
described by `chunkFrames`, provided the whole request needs at most 127
fragments (beyond that `struct.pack('>B', …)` raises). -/
theorem rfGo_eq_chunkFrames (target source : List Nat)
    (htl : target.length = 4) (hsl : source.length = 4) :
    ∀ (pl : List Nat) (n : Nat), n + clen pl ≤ 127 →
      rfGo target source pl n =
        some ((chunkFrames pl n).map fun sc => mkEsb target source sc.1 sc.2)
  | pl, n => by
    intro hb
    by_cases h0 : pl = []
    · subst h0
      rw [rfGo, chunkFrames_nil]
      simp
    · by_cases h16 : pl.length ≤ 16
      · have hc1 := clen_small pl h0 h16
        rw [rfGo, chunkFrames_small pl n h0 h16]
        simp only [h0, dite_false, if_pos h16]
        have hlt : n + 1 + 0x80 < 256 := by omega
        have hdrop : pl.drop 16 = [] := List.drop_eq_nil_of_le h16
        have htake : pl.take 16 = pl := List.take_of_length_le h16
        rw [show toBytes1 (n + 1 + 0x80) = some [n + 1 + 0x80] from
          by unfold toBytes1; rw [if_pos hlt]]
        dsimp only
        rw [htake, esbFrameBytes_eq target source _ pl htl hsl]
        dsimp only
        rw [hdrop, show rfGo target source [] (n + 1 + 0x80) = some [] from
          by rw [rfGo]; simp]
        rfl
      · have h16' : 16 < pl.length := by omega
        have hcb := clen_big pl h16'
        have hdpos : pl.drop 16 ≠ [] := by
          intro h
          have := List.length_drop 16 pl
          rw [h] at this
          simp at this
          omega
        have ih := rfGo_eq_chunkFrames target source htl hsl (pl.drop 16)
          (n + 1) (by have := clen_pos (pl.drop 16) hdpos; omega)
        rw [rfGo, chunkFrames_big pl n h16']
        simp only [h0, dite_false, if_neg h16]
        have hlt : n + 1 < 256 := by omega
        rw [show toBytes1 (n + 1) = some [n + 1] from
          by unfold toBytes1; rw [if_pos hlt]]
        dsimp only
        rw [esbFrameBytes_eq target source _ (pl.take 16) htl hsl]
        dsimp only
        rw [ih]
        rfl
termination_by pl _ => pl.length
decreasing_by
  simp only [List.length_drop]
  have : 0 < pl.length := List.length_pos.mpr h0
  omega

/-- A composed frame's `src` accessor reads back the target address. -/
theorem mkEsb_srcN (target source : List Nat) (s : Nat) (chunk : List Nat)
    (htl : target.length = 4) :
    Frame.srcN ⟨mkEsb target source s chunk⟩ = u32be target := by
  unfold Frame.srcN mkEsb pySlice
  simp only [List.cons_append, List.drop_succ_cons, List.drop_zero,
    List.append_assoc]
  rw [show (5 : Nat) - 1 = 4 from rfl, ← htl, List.take_left]

/-- A composed frame's `seq` accessor reads back the sequence byte. -/
theorem mkEsb_seqN (target source : List Nat) (s : Nat) (chunk : List Nat)
    (htl : target.length = 4) (hsl : source.length = 4) :
    Frame.seqN ⟨mkEsb target source s chunk⟩ = s := by
  unfold Frame.seqN mkEsb pySlice
  simp only [List.cons_append, List.drop_succ_cons, List.drop_zero,
    List.append_assoc]
  rw [show (10 : Nat) - 9 = 1 from rfl,
    show (8 : Nat) = target.length + source.length from by omega,
    ← List.drop_drop, List.drop_left]
  rw [List.drop_left]
  simp [u32be]

/-- A composed frame's `data` accessor reads back the chunk. -/
theorem mkEsb_data (target source : List Nat) (s : Nat) (chunk : List Nat)
    (htl : target.length = 4) (hsl : source.length = 4) :
    Frame.data ⟨mkEsb target source s chunk⟩ = chunk := by
  unfold Frame.data mkEsb
  simp only [List.cons_append, List.drop_succ_cons, List.append_assoc]
  rw [show (9 : Nat) = target.length + (source.length + 1) from by omega,
    ← List.drop_drop, ← List.drop_drop, List.drop_left]
  rw [List.drop_left]
  simp [List.dropLast_concat]

/-- A composed frame's `main_cmd` accessor is the preamble `0x15`. -/
theorem mkEsb_mainCmd (target source : List Nat) (s : Nat)
    (chunk : List Nat) :
    Frame.mainCmd ⟨mkEsb target source s chunk⟩ = 0x15 := rfl

/-- Every composed frame passes the CRC-8 check of the fragment parser. -/
theorem mkEsb_parse (target source : List Nat) (s : Nat) (chunk : List Nat) :
    fragment_parse (mkEsb target source s chunk) =
      some ⟨mkEsb target source s chunk⟩ := by
  unfold fragment_parse mkEsb
  simp only [List.getLast?_concat, List.dropLast_concat]
  simp

/-- Every pair emitted by `chunkFrames` is either the terminal fragment
(sequence byte `0x80 + n + clen`, the final partial chunk) or a middle
fragment `k` (sequence byte `n + k`, the `k`-th 16-byte chunk). -/
theorem chunkFrames_mem : ∀ (pl : List Nat) (n : Nat),
    ∀ sc ∈ chunkFrames pl n,
      (sc.1 = 0x80 + (n + clen pl) ∧
        sc.2 = pl.drop (16 * (clen pl - 1))) ∨
      (∃ k, 1 ≤ k ∧ k + 1 ≤ clen pl ∧ sc.1 = n + k ∧
        sc.2 = (pl.drop (16 * (k - 1))).take 16)
  | pl, n => by
    intro sc hmem
    by_cases h0 : pl = []
    · subst h0
      rw [chunkFrames_nil] at hmem
      simp at hmem
    · by_cases h16 : pl.length ≤ 16
      · rw [chunkFrames_small pl n h0 h16] at hmem
        simp only [List.mem_singleton] at hmem
        subst hmem
        left
        rw [clen_small pl h0 h16]
        constructor
        · omega
        · simp
      · have h16' : 16 < pl.length := by omega
        have hdpos : pl.drop 16 ≠ [] := by
          intro h
          have h2 := List.length_drop 16 pl
          rw [h] at h2
          simp at h2
          omega
        have hcpos := clen_pos (pl.drop 16) hdpos
        have hcb := clen_big pl h16'
        rw [chunkFrames_big pl n h16'] at hmem
        rcases List.mem_cons.mp hmem with hhd | htl2
        · subst hhd
          right
          exact ⟨1, le_rfl, by omega, by omega, by simp⟩
        · have ih := chunkFrames_mem (pl.drop 16) (n + 1) sc htl2
          rcases ih with ⟨hs1, hs2⟩ | ⟨k, hk1, hk2, hs1, hs2⟩
          · left
            constructor
            · omega
            · rw [hs2, List.drop_drop]
              congr 1
              omega
          · right
            refine ⟨k + 1, by omega, by omega, by omega, ?_⟩
            rw [hs2, List.drop_drop]
            congr 2
            omega
termination_by pl _ => pl.length
decreasing_by
  simp only [List.length_drop]
  have := List.length_pos.mpr h0
  omega

/-- The terminal pair is always emitted. -/
theorem chunkFrames_term_mem : ∀ (pl : List Nat) (n : Nat), pl ≠ [] →
    (0x80 + (n + clen pl), pl.drop (16 * (clen pl - 1))) ∈ chunkFrames pl n
  | pl, n => by
    intro h0
    by_cases h16 : pl.length ≤ 16
    · rw [chunkFrames_small pl n h0 h16, clen_small pl h0 h16]
      simp only [List.mem_singleton, Prod.mk.injEq]
      exact ⟨by omega, by simp⟩
    · have h16' : 16 < pl.length := by omega
      have hdpos : pl.drop 16 ≠ [] := by
        intro h
        have h2 := List.length_drop 16 pl
        rw [h] at h2
        simp at h2
        omega
      have hcpos := clen_pos (pl.drop 16) hdpos
      have hcb := clen_big pl h16'
      rw [chunkFrames_big pl n h16']
      apply List.mem_cons_of_mem
      have ih := chunkFrames_term_mem (pl.drop 16) (n + 1) hdpos
      have he1 : 0x80 + (n + 1 + clen (pl.drop 16)) =
          0x80 + (n + clen pl) := by omega
      have he2 : (pl.drop 16).drop (16 * (clen (pl.drop 16) - 1)) =
          pl.drop (16 * (clen pl - 1)) := by
        rw [List.drop_drop]
        congr 1
        omega
      rw [he1, he2] at ih
      exact ih
termination_by pl _ => pl.length
decreasing_by
  simp only [List.length_drop]
  have := List.length_pos.mpr h0
  omega

/-- Every middle pair `k` (for `1 ≤ k ≤ clen - 1`) is emitted. -/
theorem chunkFrames_mid_mem : ∀ (pl : List Nat) (n k : Nat), 1 ≤ k →
    k + 1 ≤ clen pl →
    (n + k, (pl.drop (16 * (k - 1))).take 16) ∈ chunkFrames pl n
  | pl, n, k => by
    intro hk1 hk2
    have h0 : pl ≠ [] := by
      intro h
      subst h
      simp [clen] at hk2
    by_cases h16 : pl.length ≤ 16
    · rw [clen_small pl h0 h16] at hk2
      omega
    · have h16' : 16 < pl.length := by omega
      have hdpos : pl.drop 16 ≠ [] := by
        intro h
        have h2 := List.length_drop 16 pl
        rw [h] at h2
        simp at h2
        omega
      have hcb := clen_big pl h16'
      rw [chunkFrames_big pl n h16']
      by_cases hk : k = 1
      · subst hk
        have he : (pl.drop (16 * (1 - 1))).take 16 = pl.take 16 := by simp
        rw [he]
        exact List.mem_cons_self _ _
      · have hk2' : 2 ≤ k := by omega
        apply List.mem_cons_of_mem
        have ih := chunkFrames_mid_mem (pl.drop 16) (n + 1) (k - 1)
          (by omega) (by omega)
        have he1 : n + 1 + (k - 1) = n + k := by omega
        have he2 : ((pl.drop 16).drop (16 * (k - 1 - 1))).take 16 =
            (pl.drop (16 * (k - 1))).take 16 := by
          rw [List.drop_drop]
          congr 2
          omega
        rw [he1, he2] at ih
        exact ih
termination_by pl _ _ => pl.length
decreasing_by
  simp only [List.length_drop]
  have := List.length_pos.mpr h0
  omega

/-- Concatenating the middle chunks `1..m` and the tail from offset `16·m`
recovers the payload. -/
theorem flatten_chunks (pl : List Nat) : ∀ m : Nat,
    ((List.range' 1 m).map
      (fun i => (pl.drop (16 * (i - 1))).take 16)).flatten ++
      pl.drop (16 * m) = pl := by
  intro m
  induction m with
  | zero => simp
  | succ m ih =>
    rw [List.range'_concat]
    simp only [List.map_append, List.flatten_append, List.map_cons,
      List.map_nil, List.flatten_cons, List.flatten_nil, List.append_nil,
      List.append_assoc]
    have h1 : 1 + 1 * m - 1 = m := by omega
    have h2 : pl.drop (16 * (m + 1)) = (pl.drop (16 * m)).drop 16 := by
      rw [List.drop_drop, show 16 * m + 16 = 16 * (m + 1) from by ring]
    rw [h1, h2, List.take_append_drop]
    exact ih

/-- One reflected CRC-16 bit step stays below `2^16`. -/
theorem crc16Shift_lt (c : Nat) (h : c < 65536) : crc16Shift c < 65536 := by
  unfold crc16Shift
  split
  · have h1 : c / 2 < 2 ^ 16 := by omega
    have h2 : (0xA001 : Nat) < 2 ^ 16 := by norm_num
    have := Nat.xor_lt_two_pow h1 h2
    omega
  · omega

/-- Eight CRC-16 bit steps stay below `2^16`. -/
theorem crc16Bits_lt : ∀ (k c : Nat), c < 65536 → crc16Bits c k < 65536
  | 0, _, h => h
  | k + 1, c, h => crc16Bits_lt k _ (crc16Shift_lt c h)

/-- The Modbus CRC-16 always fits 16 bits. -/
theorem crc16_lt (bs : List Nat) : crc16 bs < 65536 := by
  unfold crc16
  have hgen : ∀ (l : List Nat) (c : Nat), c < 65536 →
      l.foldl (fun c b => crc16Bits (c ^^^ b % 256) 8) c < 65536 := by
    intro l
    induction l with
    | nil => intro c h; exact h
    | cons b bs ih =>
      intro c h
      apply ih
      apply crc16Bits_lt
      have h1 : c < 2 ^ 16 := h
      have h2 : b % 256 < 2 ^ 16 := by
        have := Nat.mod_lt b (show 0 < 256 from by norm_num)
        omega
      have := Nat.xor_lt_two_pow h1 h2
      omega
  exact hgen bs 0xFFFF (by norm_num)

/-- Reading back a packed 16-bit big-endian value. -/
theorem u32be_pack2be (c : Nat) (h : c < 65536) : u32be (pack2be c) = c := by
  unfold u32be pack2be
  simp [List.foldl]
  omega

/-- Central reassembly result: if the scratch holds exactly the frames
composed from payload `pl` (in any order, each frame present), `get_payload`
reconstructs `pl` and returns it with `main_cmd = 0x15` and no retransmit. -/
theorem reassemble_chunks (target source pl : List Nat)
    (scratch : List Frame) (radio : Bool) (d i : String)
    (htl : target.length = 4) (hsl : source.length = 4)
    (hplne : pl ≠ []) (h2len : 2 ≤ pl.length) (hbound : clen pl ≤ 127)
    (hchar : ∀ f ∈ scratch, ∃ sc ∈ chunkFrames pl 0,
      f = ⟨mkEsb target source sc.1 sc.2⟩)
    (hall : ∀ sc ∈ chunkFrames pl 0,
      (⟨mkEsb target source sc.1 sc.2⟩ : Frame) ∈ scratch)
    (hcrc : crc16 (pl.take (pl.length - 2)) =
      u32be (pl.drop (pl.length - 2))) :
    getPayloadCore scratch (u32be target) radio d i =
      some (.ok (0x15, pl), []) := by
  have hcpos : 1 ≤ clen pl := clen_pos pl hplne
  have hfil : filteredFrames scratch (u32be target) = scratch := by
    unfold filteredFrames
    rw [List.filter_eq_self]
    intro f hf
    obtain ⟨sc, hsc, rfl⟩ := hchar f hf
    simp [mkEsb_srcN target source sc.1 sc.2 htl]
  have hterm_pair := chunkFrames_term_mem pl 0 hplne
  rw [Nat.zero_add] at hterm_pair
  have hend_seq : Frame.seqN ⟨mkEsb target source (0x80 + clen pl)
      (pl.drop (16 * (clen pl - 1)))⟩ = 0x80 + clen pl :=
    mkEsb_seqN target source _ _ htl hsl
  have hfind_end : scratch.find? (fun f => 0x80 < f.seqN) =
      some ⟨mkEsb target source (0x80 + clen pl)
        (pl.drop (16 * (clen pl - 1)))⟩ := by
    apply find?_eq_of_unique (hall _ hterm_pair)
    · simp only [hend_seq, decide_eq_true_eq]
      omega
    · intro y hy hpy
      obtain ⟨sc, hsc, rfl⟩ := hchar y hy
      have hseqy := mkEsb_seqN target source sc.1 sc.2 htl hsl
      rcases chunkFrames_mem pl 0 sc hsc with ⟨h1, h2⟩ |
        ⟨k, hk1, hk2, h1, h2⟩
      · rw [h1, h2]
        simp
      · exfalso
        rw [hseqy] at hpy
        simp only [decide_eq_true_eq] at hpy
        omega
  have hfind_dat : ∀ j ∈ List.range' 1 (clen pl - 1),
      scratch.find? (fun f => f.seqN == j) =
        some ⟨mkEsb target source j ((pl.drop (16 * (j - 1))).take 16)⟩ := by
    intro j hj
    rw [List.mem_range'_1] at hj
    have hj1 : 1 ≤ j := hj.1
    have hjM : j < clen pl := by omega
    have hmid := chunkFrames_mid_mem pl 0 j hj1 (by omega)
    rw [Nat.zero_add] at hmid
    apply find?_eq_of_unique (hall _ hmid)
    · simp [mkEsb_seqN target source j _ htl hsl]
    · intro y hy hpy
      obtain ⟨sc, hsc, rfl⟩ := hchar y hy
      have hseqy := mkEsb_seqN target source sc.1 sc.2 htl hsl
      have hscj : sc.1 = j := by
        simpa [hseqy] using hpy
      rcases chunkFrames_mem pl 0 sc hsc with ⟨h1, h2⟩ |
        ⟨k, hk1, hk2, h1, h2⟩
      · exfalso
        omega
      · rw [Nat.zero_add] at h1
        rw [h2, hscj, h1.symm.trans hscj]
  have hrebuild := rebuildLoop_ok scratch
    (fun j => ⟨mkEsb target source j ((pl.drop (16 * (j - 1))).take 16)⟩)
    (List.range' 1 (clen pl - 1)) hfind_dat
  have hdata : ∀ j : Nat, Frame.data (⟨mkEsb target source j
      ((pl.drop (16 * (j - 1))).take 16)⟩ : Frame) =
      (pl.drop (16 * (j - 1))).take 16 :=
    fun j => mkEsb_data target source j _ htl hsl
  have hflat : ((List.range' 1 (clen pl - 1)).map
      (fun j => Frame.data ⟨mkEsb target source j
        ((pl.drop (16 * (j - 1))).take 16)⟩)).flatten ++
      pl.drop (16 * (clen pl - 1)) = pl := by
    simp only [hdata]
    exact flatten_chunks pl (clen pl - 1)
  have hterm_data : Frame.data (⟨mkEsb target source (0x80 + clen pl)
      (pl.drop (16 * (clen pl - 1)))⟩ : Frame) =
      pl.drop (16 * (clen pl - 1)) :=
    mkEsb_data target source _ _ htl hsl
  have htr : Frame.seqN (⟨mkEsb target source (0x80 + clen pl)
      (pl.drop (16 * (clen pl - 1)))⟩ : Frame) - 0x80 = clen pl := by
    rw [hend_seq]
    omega
  simp only [getPayloadCore, hfil, hfind_end]
  rw [htr, hrebuild]
  dsimp only
  rw [hterm_data, hflat]
  rw [if_neg (by omega), if_pos hcrc]
  rw [mkEsb_mainCmd]

/-! ## Claim C1 -/

/-- Claim C1, counterexample: on a scratch holding the single terminal
fragment (N = 1) with data `01 02 03 61 61` (payload `01 02 03` plus valid
CRC-16 `61 61`), `get_payload` returns the fragment's *entire* data region —
the trailing 2-byte CRC-16 is *not* stripped, contradicting the claimed
return value `data[:-2]`. -/
theorem get_payload_single_fragment_keeps_crc :
    getPayloadCore [singleTermFrag] (u32be [0x72, 0x22, 0x01, 0x43]) true
        "99978563412" "114172220143" =
      some (.ok (0x95, [0x01, 0x02, 0x03, 0x61, 0x61]), []) ∧
    ([0x01, 0x02, 0x03, 0x61, 0x61] : List Nat) ≠ [0x01, 0x02, 0x03] := by
  decide

/-- Claim C1, amended: when the filtered scratch holds a unique terminal
fragment with `seq = 0x80 + N` and a unique fragment for every id
`1 ≤ i ≤ N-1`, and the concatenated data regions end in a valid Modbus
CRC-16, `get_payload` returns the terminal fragment's `main_cmd` paired with
the *whole* reassembled payload, the trailing 2-byte CRC-16 included (the
source never strips it); in particular for `N = 1` it returns exactly the
terminal fragment's data region.  The transaction is unchanged. -/
theorem get_payload_reassembles_with_crc
    (t : Transaction) (N : Nat) (endf : Frame) (dat : Nat → Frame)
    (payload : List Nat)
    (hend_mem : endf ∈ filteredFrames t.scratch t.inverter_addr)
    (hend_seq : endf.seqN = 0x80 + N) (hN : 1 ≤ N)
    (hterm_uniq : ∀ f ∈ filteredFrames t.scratch t.inverter_addr,
      0x80 < f.seqN → f = endf)
    (hdat_mem : ∀ i, 1 ≤ i → i < N →
      dat i ∈ filteredFrames t.scratch t.inverter_addr)
    (hdat_seq : ∀ i, 1 ≤ i → i < N → (dat i).seqN = i)
    (hdat_uniq : ∀ i f, 1 ≤ i → i < N →
      f ∈ filteredFrames t.scratch t.inverter_addr → f.seqN = i → f = dat i)
    (hpayload : payload =
      ((List.range' 1 (N - 1)).map (fun i => (dat i).data)).flatten ++
        endf.data)
    (hlen : 2 ≤ payload.length)
    (hcrc : crc16 (payload.take (payload.length - 2)) =
      u32be (payload.drop (payload.length - 2))) :
    t.get_payload = some (.ok (endf.mainCmd, payload), t) := by
  have hfind_end : (filteredFrames t.scratch t.inverter_addr).find?
      (fun f => 0x80 < f.seqN) = some endf := by
    apply find?_eq_of_unique hend_mem
    · simp only [hend_seq, decide_eq_true_eq]
      omega
    · intro y hy hpy
      exact hterm_uniq y hy (by simpa using hpy)
  have hfind_dat : ∀ i ∈ List.range' 1 (N - 1),
      (filteredFrames t.scratch t.inverter_addr).find?
        (fun f => f.seqN == i) = some (dat i) := by
    intro i hi
    rw [List.mem_range'_1] at hi
    have h1 : 1 ≤ i := hi.1
    have h2 : i < N := by omega
    apply find?_eq_of_unique (hdat_mem i h1 h2)
    · simp [hdat_seq i h1 h2]
    · intro y hy hpy
      exact hdat_uniq i y h1 h2 hy (by simpa using hpy)
  have hrebuild := rebuildLoop_ok (filteredFrames t.scratch t.inverter_addr)
    dat (List.range' 1 (N - 1)) hfind_dat
  have htr : endf.seqN - 0x80 = N := by omega
  simp only [Transaction.get_payload, getPayloadCore, hfind_end, htr,
    hrebuild, ← hpayload]
  rw [if_neg (by omega), if_pos hcrc]
  simp

/-- Witness for `get_payload_reassembles_with_crc`: a two-fragment
transaction (data fragment `seq = 1` carrying `11 22`, terminal fragment
`seq = 0x82` carrying the Modbus CRC `F9 8D` of `11 22`) reassembles to
`11 22 F9 8D` with the CRC retained. -/
theorem get_payload_reassembles_with_crc_witness :
    (⟨[], [⟨[0x95, 0x72, 0x22, 0x01, 0x43, 0x72, 0x22, 0x01, 0x43, 0x01,
            0x11, 0x22, 0xA7]⟩,
          ⟨[0x95, 0x72, 0x22, 0x01, 0x43, 0x72, 0x22, 0x01, 0x43, 0x82,
            0xF9, 0x8D, 0x63]⟩], true, "99978563412", "114172220143",
       u32be [0x72, 0x22, 0x01, 0x43]⟩ : Transaction).get_payload =
      some (.ok (0x95, [0x11, 0x22, 0xF9, 0x8D]),
        ⟨[], [⟨[0x95, 0x72, 0x22, 0x01, 0x43, 0x72, 0x22, 0x01, 0x43, 0x01,
              0x11, 0x22, 0xA7]⟩,
            ⟨[0x95, 0x72, 0x22, 0x01, 0x43, 0x72, 0x22, 0x01, 0x43, 0x82,
              0xF9, 0x8D, 0x63]⟩], true, "99978563412", "114172220143",
         u32be [0x72, 0x22, 0x01, 0x43]⟩) :=
  get_payload_reassembles_with_crc _ 2
    ⟨[0x95, 0x72, 0x22, 0x01, 0x43, 0x72, 0x22, 0x01, 0x43, 0x82,
      0xF9, 0x8D, 0x63]⟩
    (fun _ => ⟨[0x95, 0x72, 0x22, 0x01, 0x43, 0x72, 0x22, 0x01, 0x43, 0x01,
      0x11, 0x22, 0xA7]⟩)
    [0x11, 0x22, 0xF9, 0x8D]
    (by decide) (by decide) (by decide)
    (by decide)
    (by
      intro i h1 h2
      have hi1 : i = 1 := by omega
      subst hi1
      decide)
    (by
      intro i h1 h2
      have hi1 : i = 1 := by omega
      subst hi1
      decide)
    (by
      intro i f h1 h2
      have hi1 : i = 1 := by omega
      subst hi1
      revert f
      decide)
    (by decide) (by decide) (by decide)

/-! ## Claim C2 -/

/-- Evaluating `rfGo` on the exhausted payload yields no further fragments. -/
theorem rfGo_nil_eval (target source : List Nat) (n : Nat) :
    rfGo target source [] n = some [] := by
  rw [rfGo]
  simp

/-- One unfolding step of `rfGo` on a non-empty payload. -/
theorem rfGo_step (target source pl : List Nat) (n n2 : Nat)
    (h0 : pl ≠ [])
    (hn2 : n2 = if pl.length ≤ 16 then n + 1 + 0x80 else n + 1)
    (hlt : n2 < 256)
    (htl : target.length = 4) (hsl : source.length = 4) :
    rfGo target source pl n =
      (fun fs => mkEsb target source n2 (pl.take 16) :: fs) <$>
        rfGo target source (pl.drop 16) n2 := by
  rw [rfGo, dif_neg h0]
  dsimp only
  rw [← hn2]
  rw [show toBytes1 n2 = some [n2] from by unfold toBytes1; rw [if_pos hlt]]
  dsimp only
  rw [esbFrameBytes_eq target source n2 (pl.take 16) htl hsl]

/-- Concrete evaluation of the composer on the payload `0b 00`. -/
theorem rfFrames_settime :
    rfFrames [0x0b, 0x00] "99978563412" "114172220143" =
      some [[0x15, 0x72, 0x22, 0x01, 0x43, 0x78, 0x56, 0x34, 0x12, 0x81,
             0x0b, 0x00, 0x80, 0x06, 0x03]] := by
  rw [rfFrames,
    show ser_to_hm_addr "99978563412" = some [0x78, 0x56, 0x34, 0x12]
      from by decide,
    show ser_to_hm_addr "114172220143" = some [0x72, 0x22, 0x01, 0x43]
      from by decide]
  dsimp only
  rw [show ([0x0b, 0x00] ++ crc16be [0x0b, 0x00] : List Nat) =
    [0x0b, 0x00, 0x80, 0x06] from by decide]
  rw [rfGo_step [0x72, 0x22, 0x01, 0x43] [0x78, 0x56, 0x34, 0x12]
    [0x0b, 0x00, 0x80, 0x06] 0 129 (by decide) (by decide) (by decide)
    (by decide) (by decide)]
  rw [show List.drop 16 [0x0b, 0x00, 0x80, 0x06] = ([] : List Nat)
    from by decide]
  rw [rfGo_nil_eval]
  decide

/-- Concrete evaluation of the composer on a 17-byte payload: two
fragments, `seq = 1` and terminal `seq = 0x82`. -/
theorem rfFrames_two_fragments :
    rfFrames [0x01, 0x02, 0x03, 0x04, 0x05, 0x06, 0x07, 0x08, 0x09, 0x0A,
        0x0B, 0x0C, 0x0D, 0x0E, 0x0F, 0x10, 0x11]
      "99978563412" "114172220143" =
      some [[0x15, 0x72, 0x22, 0x01, 0x43, 0x78, 0x56, 0x34, 0x12, 0x01,
             0x01, 0x02, 0x03, 0x04, 0x05, 0x06, 0x07, 0x08, 0x09, 0x0A,
             0x0B, 0x0C, 0x0D, 0x0E, 0x0F, 0x10, 0x1E],
            [0x15, 0x72, 0x22, 0x01, 0x43, 0x78, 0x56, 0x34, 0x12, 0x82,
             0x11, 0x12, 0xFB, 0x75]] := by
  rw [rfFrames,
    show ser_to_hm_addr "99978563412" = some [0x78, 0x56, 0x34, 0x12]
      from by decide,
    show ser_to_hm_addr "114172220143" = some [0x72, 0x22, 0x01, 0x43]
      from by decide]
  dsimp only
  rw [show ([0x01, 0x02, 0x03, 0x04, 0x05, 0x06, 0x07, 0x08, 0x09, 0x0A,
      0x0B, 0x0C, 0x0D, 0x0E, 0x0F, 0x10, 0x11] ++
      crc16be [0x01, 0x02, 0x03, 0x04, 0x05, 0x06, 0x07, 0x08, 0x09, 0x0A,
      0x0B, 0x0C, 0x0D, 0x0E, 0x0F, 0x10, 0x11] : List Nat) =
    [0x01, 0x02, 0x03, 0x04, 0x05, 0x06, 0x07, 0x08, 0x09, 0x0A, 0x0B,
     0x0C, 0x0D, 0x0E, 0x0F, 0x10, 0x11, 0x12, 0xFB] from by decide]
  rw [rfGo_step [0x72, 0x22, 0x01, 0x43] [0x78, 0x56, 0x34, 0x12]
    [0x01, 0x02, 0x03, 0x04, 0x05, 0x06, 0x07, 0x08, 0x09, 0x0A, 0x0B,
     0x0C, 0x0D, 0x0E, 0x0F, 0x10, 0x11, 0x12, 0xFB] 0 1 (by decide)
    (by decide) (by decide) (by decide) (by decide)]
  rw [show List.drop 16 [0x01, 0x02, 0x03, 0x04, 0x05, 0x06, 0x07, 0x08,
      0x09, 0x0A, 0x0B, 0x0C, 0x0D, 0x0E, 0x0F, 0x10, 0x11, 0x12, 0xFB] =
    ([0x11, 0x12, 0xFB] : List Nat) from by decide]
  rw [rfGo_step [0x72, 0x22, 0x01, 0x43] [0x78, 0x56, 0x34, 0x12]
    [0x11, 0x12, 0xFB] 1 130 (by decide) (by decide) (by decide)
    (by decide) (by decide)]
  rw [show List.drop 16 [0x11, 0x12, 0xFB] = ([] : List Nat) from by decide]
  rw [rfGo_nil_eval]
  decide

/-- Claim C2, counterexample: the two-byte payload `0b 00` composes into a
single terminal fragment; parsing it and running `get_payload` yields the
payload *with* its Modbus CRC-16 `80 06` appended — not exactly `0b 00` as
the claim states. -/
theorem compose_reassemble_not_identity :
    rfFrames [0x0b, 0x00] "99978563412" "114172220143" =
      some [[0x15, 0x72, 0x22, 0x01, 0x43, 0x78, 0x56, 0x34, 0x12, 0x81,
             0x0b, 0x00, 0x80, 0x06, 0x03]] ∧
    fragment_parse [0x15, 0x72, 0x22, 0x01, 0x43, 0x78, 0x56, 0x34, 0x12,
        0x81, 0x0b, 0x00, 0x80, 0x06, 0x03] =
      some ⟨[0x15, 0x72, 0x22, 0x01, 0x43, 0x78, 0x56, 0x34, 0x12, 0x81,
             0x0b, 0x00, 0x80, 0x06, 0x03]⟩ ∧
    getPayloadCore
        [⟨[0x15, 0x72, 0x22, 0x01, 0x43, 0x78, 0x56, 0x34, 0x12, 0x81,
           0x0b, 0x00, 0x80, 0x06, 0x03]⟩]
        (u32be [0x72, 0x22, 0x01, 0x43]) true "99978563412" "114172220143" =
      some (.ok (0x15, [0x0b, 0x00, 0x80, 0x06]), []) ∧
    ([0x0b, 0x00, 0x80, 0x06] : List Nat) ≠ [0x0b, 0x00] := by
  exact ⟨rfFrames_settime, by decide, by decide, by decide⟩

/-- Claim C2, amended: for every payload `p` that (with its 2-byte Modbus
CRC-16 trailer) spans at most 127 fragments — i.e.
`p.length + 2 ≤ 16 · 127`, slightly tighter than the claimed
`p.length < 16 · 127`, since the CRC bytes count toward the fragment budget
and `struct.pack('>B', …)` overflows at fragment 128 — composing `p` with
the request composer, parsing every emitted fragment, and presenting the
fragments to `get_payload` in any arrival order succeeds and yields the
request preamble `0x15` paired with `p ++ crc16be p`: the payload `p` with
its CRC-16 still attached, whose first `p.length` bytes are exactly `p`.
The result is invariant under permutation of the arrival order. -/
theorem compose_reassemble_roundtrip
    (p : List Nat) (dtu_ser inverter_ser : String)
    (target source : List Nat) (fs : List (List Nat)) (scratch : List Frame)
    (radio : Bool) (d i : String)
    (hlen : p.length + 2 ≤ 16 * 127)
    (htgt : ser_to_hm_addr inverter_ser = some target)
    (hsrc : ser_to_hm_addr dtu_ser = some source)
    (hfs : rfFrames p dtu_ser inverter_ser = some fs)
    (hperm : scratch.Perm (fs.map Frame.mk)) :
    (∀ b ∈ fs, fragment_parse b = some ⟨b⟩) ∧
    getPayloadCore scratch (u32be target) radio d i =
      some (.ok (0x15, p ++ crc16be p), []) ∧
    (p ++ crc16be p).take p.length = p := by
  have htl := ser_to_hm_addr_length htgt
  have hsl := ser_to_hm_addr_length hsrc
  have hpllen : (p ++ crc16be p).length = p.length + 2 := by
    simp [crc16be, pack2be]
  have hplne : (p ++ crc16be p) ≠ [] := by
    intro h
    rw [h] at hpllen
    simp at hpllen
  have hbound : clen (p ++ crc16be p) ≤ 127 := by
    unfold clen
    rw [hpllen]
    omega
  have hfs' : fs = (chunkFrames (p ++ crc16be p) 0).map
      (fun sc => mkEsb target source sc.1 sc.2) := by
    unfold rfFrames at hfs
    rw [hsrc, htgt] at hfs
    dsimp only at hfs
    rw [rfGo_eq_chunkFrames target source htl hsl _ 0 (by omega)] at hfs
    exact (Option.some.inj hfs).symm
  have hchar : ∀ f ∈ scratch, ∃ sc ∈ chunkFrames (p ++ crc16be p) 0,
      f = ⟨mkEsb target source sc.1 sc.2⟩ := by
    intro f hf
    have hf2 : f ∈ fs.map Frame.mk := hperm.mem_iff.mp hf
    rw [hfs', List.map_map] at hf2
    obtain ⟨sc, hsc, hfe⟩ := List.mem_map.mp hf2
    exact ⟨sc, hsc, hfe.symm⟩
  have hall : ∀ sc ∈ chunkFrames (p ++ crc16be p) 0,
      (⟨mkEsb target source sc.1 sc.2⟩ : Frame) ∈ scratch := by
    intro sc hsc
    apply hperm.mem_iff.mpr
    rw [hfs', List.map_map]
    exact List.mem_map.mpr ⟨sc, hsc, rfl⟩
  refine ⟨?_, ?_, ?_⟩
  · intro b hb
    rw [hfs'] at hb
    obtain ⟨sc, hsc, rfl⟩ := List.mem_map.mp hb
    exact mkEsb_parse target source sc.1 sc.2
  · apply reassemble_chunks target source _ scratch radio d i htl hsl hplne
      (by omega) hbound hchar hall
    have htake : (p ++ crc16be p).take ((p ++ crc16be p).length - 2) = p := by
      rw [hpllen, show p.length + 2 - 2 = p.length from by omega]
      exact List.take_left p (crc16be p)
    have hdrop : (p ++ crc16be p).drop ((p ++ crc16be p).length - 2) =
        crc16be p := by
      rw [hpllen, show p.length + 2 - 2 = p.length from by omega]
      exact List.drop_left p (crc16be p)
    rw [htake, hdrop]
    unfold crc16be
    rw [u32be_pack2be _ (crc16_lt p)]
  · have := List.take_left p (crc16be p)
    exact this

/-- Witness for `compose_reassemble_roundtrip`: a 17-byte payload composes
into two fragments which, received in *reversed* order (terminal first),
still reassemble to the payload with its CRC `12 FB` attached. -/
theorem compose_reassemble_roundtrip_witness :
    (∀ b ∈ [[0x15, 0x72, 0x22, 0x01, 0x43, 0x78, 0x56, 0x34, 0x12, 0x01,
        0x01, 0x02, 0x03, 0x04, 0x05, 0x06, 0x07, 0x08, 0x09, 0x0A,
        0x0B, 0x0C, 0x0D, 0x0E, 0x0F, 0x10, 0x1E],
       [0x15, 0x72, 0x22, 0x01, 0x43, 0x78, 0x56, 0x34, 0x12, 0x82,
        0x11, 0x12, 0xFB, 0x75]],
      fragment_parse b = some ⟨b⟩) ∧
    getPayloadCore
        [⟨[0x15, 0x72, 0x22, 0x01, 0x43, 0x78, 0x56, 0x34, 0x12, 0x82,
           0x11, 0x12, 0xFB, 0x75]⟩,
         ⟨[0x15, 0x72, 0x22, 0x01, 0x43, 0x78, 0x56, 0x34, 0x12, 0x01,
           0x01, 0x02, 0x03, 0x04, 0x05, 0x06, 0x07, 0x08, 0x09, 0x0A,
           0x0B, 0x0C, 0x0D, 0x0E, 0x0F, 0x10, 0x1E]⟩]
        (u32be [0x72, 0x22, 0x01, 0x43]) false "99978563412"
        "114172220143" =
      some (.ok (0x15,
        [0x01, 0x02, 0x03, 0x04, 0x05, 0x06, 0x07, 0x08, 0x09, 0x0A,
         0x0B, 0x0C, 0x0D, 0x0E, 0x0F, 0x10, 0x11] ++
        crc16be [0x01, 0x02, 0x03, 0x04, 0x05, 0x06, 0x07, 0x08, 0x09,
          0x0A, 0x0B, 0x0C, 0x0D, 0x0E, 0x0F, 0x10, 0x11]), []) ∧
    ([0x01, 0x02, 0x03, 0x04, 0x05, 0x06, 0x07, 0x08, 0x09, 0x0A,
      0x0B, 0x0C, 0x0D, 0x0E, 0x0F, 0x10, 0x11] ++
     crc16be [0x01, 0x02, 0x03, 0x04, 0x05, 0x06, 0x07, 0x08, 0x09, 0x0A,
       0x0B, 0x0C, 0x0D, 0x0E, 0x0F, 0x10, 0x11]).take 17 =
      [0x01, 0x02, 0x03, 0x04, 0x05, 0x06, 0x07, 0x08, 0x09, 0x0A,
       0x0B, 0x0C, 0x0D, 0x0E, 0x0F, 0x10, 0x11] :=
  compose_reassemble_roundtrip
    [0x01, 0x02, 0x03, 0x04, 0x05, 0x06, 0x07, 0x08, 0x09, 0x0A,
     0x0B, 0x0C, 0x0D, 0x0E, 0x0F, 0x10, 0x11]
    "99978563412" "114172220143"
    [0x72, 0x22, 0x01, 0x43] [0x78, 0x56, 0x34, 0x12]
    [[0x15, 0x72, 0x22, 0x01, 0x43, 0x78, 0x56, 0x34, 0x12, 0x01,
      0x01, 0x02, 0x03, 0x04, 0x05, 0x06, 0x07, 0x08, 0x09, 0x0A,
      0x0B, 0x0C, 0x0D, 0x0E, 0x0F, 0x10, 0x1E],
     [0x15, 0x72, 0x22, 0x01, 0x43, 0x78, 0x56, 0x34, 0x12, 0x82,
      0x11, 0x12, 0xFB, 0x75]]
    [⟨[0x15, 0x72, 0x22, 0x01, 0x43, 0x78, 0x56, 0x34, 0x12, 0x82,
       0x11, 0x12, 0xFB, 0x75]⟩,
     ⟨[0x15, 0x72, 0x22, 0x01, 0x43, 0x78, 0x56, 0x34, 0x12, 0x01,
       0x01, 0x02, 0x03, 0x04, 0x05, 0x06, 0x07, 0x08, 0x09, 0x0A,
       0x0B, 0x0C, 0x0D, 0x0E, 0x0F, 0x10, 0x1E]⟩]
    false "99978563412" "114172220143"
    (by decide) (by decide) (by decide)
    rfFrames_two_fragments
    (List.Perm.swap _ _ _)

/-! ## Claim C3 -/

/-- Claim C3, counterexample: decoding the spec's literal 41-byte payload
with the HM600 status decoder yields string-1 voltage `25.7` (raw
`u16 @ 2 = 0x0101 = 257`), not the claimed `33.4`: the spec's hex dump is
misaligned (an extra leading `01` byte, and the bytes `01 00` missing before
the final `00 2C …` group) relative to the payload its decoded values came
from. -/
theorem hm600_spec_payload_mismatch :
    Hm600Decode0B.dc_voltage_0 specHm600Payload = some ((257 : ℚ) / 10) ∧
    ((257 : ℚ) / 10) ≠ ((334 : ℚ) / 10) := by
  have h : hmU16 specHm600Payload 2 = some 257 := by decide
  refine ⟨?_, by norm_num⟩
  simp [Hm600Decode0B.dc_voltage_0, h]

/-- Claim C3, amended: decoding the correctly aligned 42-byte payload (the
one reassembled from the `test.py` log frames) yields string1 V=33.4,
I=1.57, P=52.2; string2 V=33.6, I=1.57, P=52.8; AC V=227.4, freq=50.01 Hz,
P=100.3, temp=21.6 °C — but the AC current is `4.4` because
`Hm600Decode0B.ac_current_0` divides the raw `u16 @ 34 = 44` by 10, not by
100 (the DC currents do divide by 100). -/
theorem hm600_status_decode_log_payload :
    Hm600Decode0B.dc_voltage_0 logHm600Payload = some ((334 : ℚ) / 10) ∧
    Hm600Decode0B.dc_current_0 logHm600Payload = some ((157 : ℚ) / 100) ∧
    Hm600Decode0B.dc_power_0 logHm600Payload = some ((522 : ℚ) / 10) ∧
    Hm600Decode0B.dc_voltage_1 logHm600Payload = some ((336 : ℚ) / 10) ∧
    Hm600Decode0B.dc_current_1 logHm600Payload = some ((157 : ℚ) / 100) ∧
    Hm600Decode0B.dc_power_1 logHm600Payload = some ((528 : ℚ) / 10) ∧
    Hm600Decode0B.ac_voltage_0 logHm600Payload = some ((2274 : ℚ) / 10) ∧
    Hm600Decode0B.frequency logHm600Payload = some ((5001 : ℚ) / 100) ∧
    Hm600Decode0B.ac_power_0 logHm600Payload = some ((1003 : ℚ) / 10) ∧
    Hm600Decode0B.ac_current_0 logHm600Payload = some ((44 : ℚ) / 10) ∧
    Hm600Decode0B.temperature logHm600Payload = some ((216 : ℚ) / 10) ∧
    ((44 : ℚ) / 10) ≠ ((44 : ℚ) / 100) := by
  have h2 : hmU16 logHm600Payload 2 = some 334 := by decide
  have h4 : hmU16 logHm600Payload 4 = some 157 := by decide
  have h6 : hmU16 logHm600Payload 6 = some 522 := by decide
  have h8 : hmU16 logHm600Payload 8 = some 336 := by decide
  have h10 : hmU16 logHm600Payload 10 = some 157 := by decide
  have h12 : hmU16 logHm600Payload 12 = some 528 := by decide
  have h26 : hmU16 logHm600Payload 26 = some 2274 := by decide
  have h28 : hmU16 logHm600Payload 28 = some 5001 := by decide
  have h30 : hmU16 logHm600Payload 30 = some 1003 := by decide
  have h34 : hmU16 logHm600Payload 34 = some 44 := by decide
  have h38 : hmU16 logHm600Payload 38 = some 216 := by decide
  refine ⟨?_, ?_, ?_, ?_, ?_, ?_, ?_, ?_, ?_, ?_, ?_, by norm_num⟩ <;>
    simp [Hm600Decode0B.dc_voltage_0, Hm600Decode0B.dc_current_0,
      Hm600Decode0B.dc_power_0, Hm600Decode0B.dc_voltage_1,
      Hm600Decode0B.dc_current_1, Hm600Decode0B.dc_power_1,
      Hm600Decode0B.ac_voltage_0, Hm600Decode0B.frequency,
      Hm600Decode0B.ac_power_0, Hm600Decode0B.ac_current_0,
      Hm600Decode0B.temperature,
      h2, h4, h6, h8, h10, h12, h26, h28, h30, h34, h38]

/-! ## Claim C4 -/

/-- Claim C4: the `dst` accessor never returns a value — the source slices
only three bytes (`frame[5:8]`) and unpacks them with the 4-byte format
`>L`, so `struct.unpack` raises `struct.error` on every frame, including
every successfully parsed frame of at least 10 bytes.  The claim that it
yields the big-endian u32 of bytes 5..9 without failing is wrong about the
code. -/
theorem dst_accessor_always_fails : ∀ f : Frame, f.dst? = none := by
  intro f
  unfold Frame.dst? unpackU32 pySlice
  rw [if_neg]
  simp only [List.length_take]
  omega

/-! ## Claim C5 -/

/-- Claim C5: the serial prefixes `1121`, `1141`, `1161` classify to
`Hm300`, `Hm600`, `Hm1200`; but a serial with any other prefix makes
`inverter_model` raise `TypeError` (from evaluating `len(None)`), not the
documented `NotImplementedError`. -/
theorem inverter_model_classification :
    inverter_model "112172220143" = .ok "Hm300" ∧
    inverter_model "114172220143" = .ok "Hm600" ∧
    inverter_model "116172220143" = .ok "Hm1200" ∧
    inverter_model "999972220143" = .error .typeError ∧
    inverter_model "999972220143" ≠ .error .notImplementedError := by
  decide

/-! ## Claim C6 -/

/-- Claim C6: with a radio present, a terminal fragment announcing `N ≥ 2`
fragments, and `i` the smallest id in `1..N-1` with no matching fragment,
`get_payload` raises `BufferError` for fragment `i` (`MissingFragment(i)`)
and appends exactly one retransmit request to the TX queue: a zero-data
fragment with preamble `0x15`, sub-command byte `0x80 + i`, target the
inverter `hm_addr` and source the DTU `hm_addr`, CRC-8 trailed.  The
scratch buffer is unchanged. -/
theorem get_payload_missing_fragment_retransmit
    (t : Transaction) (N i : Nat) (endf : Frame) (dtuA invA : List Nat)
    (hradio : t.radioPresent = true)
    (hdtu : ser_to_hm_addr t.dtu_ser = some dtuA)
    (hinv : ser_to_hm_addr t.inverter_ser = some invA)
    (hend_mem : endf ∈ filteredFrames t.scratch t.inverter_addr)
    (hend_seq : endf.seqN = 0x80 + N)
    (hterm_uniq : ∀ f ∈ filteredFrames t.scratch t.inverter_addr,
      0x80 < f.seqN → f = endf)
    (hN : 2 ≤ N) (hi1 : 1 ≤ i) (hiN : i < N) (hi127 : i ≤ 0x7F)
    (hmiss : ∀ f ∈ filteredFrames t.scratch t.inverter_addr, f.seqN ≠ i)
    (hbefore : ∀ j, 1 ≤ j → j < i →
      ∃ f ∈ filteredFrames t.scratch t.inverter_addr, f.seqN = j) :
    t.get_payload = some (.error (.bufferErrorMissing i),
      { t with txQueue := t.txQueue ++
          [([0x15] ++ invA ++ dtuA ++ [0x80 + i]) ++
            [crc8 ([0x15] ++ invA ++ dtuA ++ [0x80 + i])]] }) := by
  have hfind_end : (filteredFrames t.scratch t.inverter_addr).find?
      (fun f => 0x80 < f.seqN) = some endf := by
    apply find?_eq_of_unique hend_mem
    · simp only [hend_seq, decide_eq_true_eq]
      omega
    · intro y hy hpy
      exact hterm_uniq y hy (by simpa using hpy)
  have hnone : (filteredFrames t.scratch t.inverter_addr).find?
      (fun f => f.seqN == i) = none := by
    rw [List.find?_eq_none]
    intro f hf
    simpa using hmiss f hf
  have hsome : ∀ j, 1 ≤ j → j < i →
      ((filteredFrames t.scratch t.inverter_addr).find?
        (fun f => f.seqN == j)).isSome := by
    intro j hj1 hj2
    obtain ⟨f, hf_mem, hf_seq⟩ := hbefore j hj1 hj2
    exact List.find?_isSome.mpr ⟨f, hf_mem, by simp [hf_seq]⟩
  have herr := rebuildLoop_error (filteredFrames t.scratch t.inverter_addr)
    i (N - 1) 1 hi1 (by omega) hnone (fun j hj1 hj2 => hsome j hj1 hj2)
  have htr : endf.seqN - 0x80 = N := by omega
  have hpkt : doRetransmit t.radioPresent t.dtu_ser t.inverter_ser i =
      some [([0x15] ++ invA ++ dtuA ++ [0x80 + i]) ++
        [crc8 ([0x15] ++ invA ++ dtuA ++ [0x80 + i])]] := by
    rw [hradio]
    simp only [doRetransmit, retransmitPacket, toBytes1, if_pos (by omega :
      0x80 + i < 256), compose_esb_fragment, hdtu, hinv]
    simp
  simp only [Transaction.get_payload, getPayloadCore, hfind_end, htr, herr,
    hpkt]
  simp

/-- Witness for `get_payload_missing_fragment_retransmit` (spec scenario 4):
scratch holds `seq = 1` and the terminal `seq = 0x83` (N = 3); fragment 2 is
missing, so the transaction fails with `MissingFragment(2)` and queues the
retransmit request `15 72 22 01 43 78 56 34 12 82 8d`. -/
theorem get_payload_missing_fragment_retransmit_witness :
    (⟨[], [⟨[0x95, 0x72, 0x22, 0x01, 0x43, 0x72, 0x22, 0x01, 0x43, 0x01,
            0x33, 0xA7]⟩,
          ⟨[0x95, 0x72, 0x22, 0x01, 0x43, 0x72, 0x22, 0x01, 0x43, 0x83,
            0x44, 0x52]⟩], true, "99978563412", "114172220143",
       u32be [0x72, 0x22, 0x01, 0x43]⟩ : Transaction).get_payload =
      some (.error (.bufferErrorMissing 2),
        ⟨[[0x15, 0x72, 0x22, 0x01, 0x43, 0x78, 0x56, 0x34, 0x12, 0x82,
           0x8D]],
         [⟨[0x95, 0x72, 0x22, 0x01, 0x43, 0x72, 0x22, 0x01, 0x43, 0x01,
            0x33, 0xA7]⟩,
          ⟨[0x95, 0x72, 0x22, 0x01, 0x43, 0x72, 0x22, 0x01, 0x43, 0x83,
            0x44, 0x52]⟩], true, "99978563412", "114172220143",
         u32be [0x72, 0x22, 0x01, 0x43]⟩) :=
  get_payload_missing_fragment_retransmit _ 3 2
    ⟨[0x95, 0x72, 0x22, 0x01, 0x43, 0x72, 0x22, 0x01, 0x43, 0x83,
      0x44, 0x52]⟩
    [0x78, 0x56, 0x34, 0x12] [0x72, 0x22, 0x01, 0x43]
    rfl (by decide) (by decide) (by decide) (by decide) (by decide)
    (by decide) (by decide) (by decide) (by decide) (by decide)
    (by
      intro j hj1 hj2
      have hj : j = 1 := by omega
      subst hj
      exact ⟨⟨[0x95, 0x72, 0x22, 0x01, 0x43, 0x72, 0x22, 0x01, 0x43, 0x01,
        0x33, 0xA7]⟩, by decide, by decide⟩)

/-! ## Claim C7 -/

/-- Claim C7, counterexample: the scratch holds a fragment with key
`(src, seq) = (0x72220143, 1)` and data `AA BB`; appending a second fragment
with the same key but data `CC DD` does *not* replace it — reassembly still
uses the first fragment's data `AA BB`, not the later `CC DD`. -/
theorem duplicate_fragment_first_wins :
    (dupTxn.frame_append dupFragB).get_payload =
      some (.ok (0x95, [0xAA, 0xBB, 0x63, 0x3F]),
        dupTxn.frame_append dupFragB) ∧
    ([0xAA, 0xBB, 0x63, 0x3F] : List Nat) ≠ [0xCC, 0xDD, 0x63, 0x3F] := by
  decide

/-- Claim C7, amended: `frame_append` *appends* the duplicate to the scratch
(no key-based replacement), and when a fragment with the same sequence
number (same key) is already present, `get_payload` behaves exactly as
before the duplicate arrived — reassembly uses the *earliest* fragment with
each key, ignoring the later duplicate. -/
theorem duplicate_fragment_append_no_replace
    (t : Transaction) (f2 : Frame)
    (hdup : ∃ f1 ∈ t.scratch, f1.srcN = f2.srcN ∧ f1.seqN = f2.seqN) :
    (t.frame_append f2).scratch = t.scratch ++ [f2] ∧
    ∀ radio dtu inv src,
      getPayloadCore ((t.frame_append f2).scratch) src radio dtu inv =
        getPayloadCore t.scratch src radio dtu inv := by
  refine ⟨rfl, ?_⟩
  intro radio dtu inv src
  obtain ⟨f1, hf1, hsrc, hseq⟩ := hdup
  show getPayloadCore (t.scratch ++ [f2]) src radio dtu inv =
    getPayloadCore t.scratch src radio dtu inv
  cases hc : (f2.srcN == src) with
  | false =>
    have hfil : filteredFrames (t.scratch ++ [f2]) src =
        filteredFrames t.scratch src := by
      simp [filteredFrames, List.filter_append, hc]
    simp only [getPayloadCore, hfil]
  | true =>
    have hfil : filteredFrames (t.scratch ++ [f2]) src =
        filteredFrames t.scratch src ++ [f2] := by
      simp [filteredFrames, List.filter_append, hc]
    have hf1fil : f1 ∈ filteredFrames t.scratch src := by
      rw [filteredFrames, List.mem_filter]
      exact ⟨hf1, by rw [hsrc]; exact hc⟩
    have hterm : (filteredFrames t.scratch src ++ [f2]).find?
        (fun f => 0x80 < f.seqN) =
        (filteredFrames t.scratch src).find? (fun f => 0x80 < f.seqN) := by
      apply find?_append_congr
      intro hp
      exact ⟨f1, hf1fil, by simp only [hseq]; exact hp⟩
    simp only [getPayloadCore, hfil, hterm]
    cases hend : (filteredFrames t.scratch src).find?
        (fun f => 0x80 < f.seqN) with
    | none =>
      dsimp only
      rw [pyMaxSeq_append_mem _ _ ⟨f1, hf1fil, hseq⟩]
    | some endf =>
      dsimp only
      rw [rebuildLoop_append_congr _ _ ⟨f1, hf1fil, hseq⟩]

/-- Witness for `duplicate_fragment_append_no_replace`: appending the
duplicate `dupFragB` to `dupTxn` leaves the reassembly result unchanged. -/
theorem duplicate_fragment_append_no_replace_witness :
    (dupTxn.frame_append dupFragB).scratch = dupTxn.scratch ++ [dupFragB] ∧
    getPayloadCore ((dupTxn.frame_append dupFragB).scratch)
        (u32be [0x72, 0x22, 0x01, 0x43]) true "99978563412" "114172220143" =
      getPayloadCore dupTxn.scratch (u32be [0x72, 0x22, 0x01, 0x43]) true
        "99978563412" "114172220143" :=
  ⟨(duplicate_fragment_append_no_replace dupTxn dupFragB
      ⟨dupFragA, by decide, by decide, by decide⟩).1,
   (duplicate_fragment_append_no_replace dupTxn dupFragB
      ⟨dupFragA, by decide, by decide, by decide⟩).2 true
      "99978563412" "114172220143" (u32be [0x72, 0x22, 0x01, 0x43])⟩

/-! ## Claim C8 -/

/-- Claim C8, counterexample: with the channel un-acked (`rx_error = 5`,
`rx_channel_ack = False`), the channel index advances on *every* empty poll:
after one empty poll the index is already 1, after two it is 2 — not "exactly
once per two consecutive empty polls". -/
theorem channel_hops_every_empty_poll :
    (emptyPoll ⟨0, false, 5⟩).rx_channel_id = 1 ∧
    (emptyPoll (emptyPoll ⟨0, false, 5⟩)).rx_channel_id = 2 := by
  decide

/-- Claim C8, amended: while un-acked the channel index advances on every
empty poll, wrapping modulo the 5-entry hop list; from an acked state the
first empty poll only bumps the miss counter (no advance, ack kept), the
second consecutive empty poll clears the ack flag and advances in the same
iteration; a successful receive never moves the index and re-acks the
channel. -/
theorem channel_hop_behaviour (s : NrfState) (hid : s.rx_channel_id < 5) :
    (s.rx_channel_ack = false →
      (emptyPoll s).rx_channel_id = (s.rx_channel_id + 1) % 5 ∧
      (emptyPoll s).rx_channel_ack = false) ∧
    (s.rx_channel_ack = true → s.rx_error = 0 →
      emptyPoll s = { s with rx_error := 1 }) ∧
    (s.rx_channel_ack = true → 1 ≤ s.rx_error →
      (emptyPoll s).rx_channel_ack = false ∧
      (emptyPoll s).rx_channel_id = (s.rx_channel_id + 1) % 5) ∧
    ((receivePoll s).rx_channel_id = s.rx_channel_id ∧
      (receivePoll s).rx_channel_ack = true) := by
  refine ⟨fun hack => ?_, fun hack herr => ?_, fun hack herr => ?_, rfl, rfl⟩
  · simp [emptyPoll, next_rx_channel, rx_channel_list, hack]
    split_ifs <;> omega
  · simp [emptyPoll, next_rx_channel, rx_channel_list, hack, herr]
  · have h1 : 1 < s.rx_error + 1 := by omega
    simp [emptyPoll, next_rx_channel, rx_channel_list, h1]
    split_ifs <;> omega

/-- Witness for `channel_hop_behaviour` at the concrete state
`(id = 4, ack = false, err = 0)`: the advance wraps to channel index 0. -/
theorem channel_hop_behaviour_witness :
    (4 < 5) ∧
    ((emptyPoll ⟨4, false, 0⟩).rx_channel_id = (4 + 1) % 5 ∧
      (emptyPoll ⟨4, false, 0⟩).rx_channel_ack = false) :=
  ⟨by decide, (channel_hop_behaviour ⟨4, false, 0⟩ (by decide)).1 rfl⟩

/-! ## Claim C9 -/

/-- Claim C9: `scratch` is indeed private to each instance, but `tx_queue`
is a *class* attribute that `__init__` never rebinds, so `queue_tx` on one
transaction appends to the queue observed by every other live transaction:
the claimed exclusive ownership of the TX queue fails. -/
theorem tx_queue_shared_scratch_private :
    TxnPair.txQueueOf ⟨[], [], []⟩ false = [] ∧
    TxnPair.txQueueOf (TxnPair.queue_tx ⟨[], [], []⟩ true [0x01]) false =
      [[0x01]] ∧
    (TxnPair.frame_append ⟨[], [], []⟩ true ⟨[0x02]⟩).scratchB = [] := by
  decide

/-! ## Claim C10 -/

/-- Claim C10: when no scratch fragment matches the source filter (in
particular on an empty scratch), `get_payload` raises the `ValueError`
produced by `max()` over the empty filtered list — not `MissingFragment` —
and neither the TX queue nor the scratch changes. -/
theorem get_payload_no_matching_source (t : Transaction)
    (h : ∀ f ∈ t.scratch, f.srcN ≠ t.inverter_addr) :
    t.get_payload = some (.error .valueErrorEmptyMax, t) := by
  have hfil : filteredFrames t.scratch t.inverter_addr = [] := by
    simp only [filteredFrames, List.filter_eq_nil_iff]
    intro f hf
    simpa using h f hf
  unfold Transaction.get_payload getPayloadCore
  rw [hfil]
  simp [pyMaxSeq]

/-- Witness for `get_payload_no_matching_source`: the empty scratch. -/
theorem get_payload_no_matching_source_witness :
    (∀ f ∈ (⟨[], [], true, "99978563412", "114172220143",
        u32be [0x72, 0x22, 0x01, 0x43]⟩ : Transaction).scratch,
      f.srcN ≠ u32be [0x72, 0x22, 0x01, 0x43]) ∧
    (⟨[], [], true, "99978563412", "114172220143",
        u32be [0x72, 0x22, 0x01, 0x43]⟩ : Transaction).get_payload =
      some (.error .valueErrorEmptyMax,
        ⟨[], [], true, "99978563412", "114172220143",
         u32be [0x72, 0x22, 0x01, 0x43]⟩) :=
  ⟨by intro f hf; simp at hf,
   get_payload_no_matching_source _ (by intro f hf; simp at hf)⟩

end Ahoy
